import Mathlib

/-!
Verification of the ETL pipeline script `src/pyspark.py` (with the driver
`main.py`).  The script is a straight-line Databricks notebook: prepare
storage, bridge a CSV into a volume (`shutil.copy` in a try/except), run a
sequence of DataFrame transformations, sync the results back to the
workspace (`sync_back_to_workspace`), and upload an artifact to S3
(`upload_to_s3`).  The filesystem-facing steps are embedded over an explicit
filesystem model; the DataFrame operations the script delegates to Spark are
modelled from the specification's contracts for them and exercised on the
literal row data of the script.
-/

namespace PysparkETL

/-- A filesystem path, as the list of its components. -/
abbrev Path := List String

/-- A driver-visible filesystem: an association list from file paths to file
contents.  Directories are implicit: a directory exists exactly when some
file lies strictly below it. -/
structure FS where
  files : List (Path × String)
deriving DecidableEq

/-- Model of `os.path.isfile`: some entry has exactly this path. -/
def isFile (fs : FS) (p : Path) : Bool :=
  fs.files.any (fun e => decide (e.1 = p))

/-- A directory exists at `p` when some file lies strictly below `p`. -/
def isDir (fs : FS) (p : Path) : Bool :=
  fs.files.any (fun e => decide (p <+: e.1 ∧ p ≠ e.1))

/-- Model of `os.path.exists`: a file or a directory is at `p`. -/
def pathExists (fs : FS) (p : Path) : Bool :=
  isFile fs p || isDir fs p

/-- Model of `shutil.copy`: read the source file and write its content at the target;
raises (returns `.error`) when the source is not an existing file. -/
def copyFile (fs : FS) (src dst : Path) : Except String FS :=
  match fs.files.find? (fun e => decide (e.1 = src)) with
  | some e => .ok ⟨(dst, e.2) :: fs.files.filter (fun f => decide (f.1 ≠ dst))⟩
  | none => .error ("No such file or directory: " ++ String.intercalate "/" src)

/-- One line printed by the script: a success marker or a failure marker. -/
inductive LogLine where
  | ok (msg : String)
  | err (msg : String)
deriving DecidableEq

/-- Step 2 "Data Bridge (Extract)" of `pyspark.py` (lines 64-74): the
try/except around `shutil.copy`.  The except-arm catches every exception and
prints the error and a hint, so the step is a total function returning the
(unchanged, on failure) filesystem together with its printed log — it never
propagates an exception. -/
def dataBridge (fs : FS) (src dst : Path) : FS × List LogLine :=
  match copyFile fs src dst with
  | .ok fs' => (fs', [.ok "SUCCESS: File copied to Volume using shutil!"])
  | .error e =>
      (fs, [.err ("Error: " ++ e),
            .err "If it fails, manually verify if the source exists locally using os.path.exists"])

/-- The bridge step followed by the rest of the script.  The cells after the
bridge run unconditionally on whatever state the bridge left (the script is
straight-line), ending in the marker `logger.info("Transformations
complete")`. -/
def pipelineFromBridge (fs : FS) (src dst : Path) : FS × List LogLine :=
  let step2 := dataBridge fs src dst
  (step2.1, step2.2 ++ [.ok "Transformations complete"])

/-- Outcome of `sync_back_to_workspace`: the success print, the caught-and-
printed shutil failure, or the missing-source print. -/
inductive SyncResult where
  | synced
  | failed (msg : String)
  | sourceMissing
deriving DecidableEq

/-- Model of `shutil.rmtree dest`: remove every entry at or below `dest`. -/
def rmTree (fs : FS) (dest : Path) : FS :=
  ⟨fs.files.filter (fun e => decide (¬ dest <+: e.1))⟩

/-- Model of `shutil.copytree src dest`: every file `src ++ rel` yields an additional
file `dest ++ rel` with the same content. -/
def copyTree (fs : FS) (src dest : Path) : FS :=
  ⟨fs.files ++ (fs.files.filter (fun e => decide (src <+: e.1))).map
      (fun e => (dest ++ e.1.drop src.length, e.2))⟩

/-- Embedding of `sync_back_to_workspace(volume_src, workspace_dest)` (lines 704-721):
if the source exists, clear the old destination tree (`rmtree`, inside the
try), then `copytree` the source to the destination; any shutil exception is
caught and printed.  If the source does not exist, only a message is
printed.  `rmtree` raises on a plain file, and `copytree` raises when the
source is a plain file (after the destination was already cleared). -/
def sync_back_to_workspace (fs : FS) (volume_src workspace_dest : Path) :
    FS × SyncResult :=
  if pathExists fs volume_src then
    if isFile fs workspace_dest then
      (fs, .failed "rmtree: not a directory")
    else
      let cleared := rmTree fs workspace_dest
      if isFile fs volume_src then
        (cleared, .failed "copytree: source is not a directory")
      else
        (copyTree cleared volume_src workspace_dest, .synced)
  else
    (fs, .sourceMissing)

/-! ## Datasets and the Loader's two formats

Modelled from the spec: the relational engine behind `spark.read` /
`DataFrame.write` is external to the repository, so the Loader's contract
(columnar format with embedded schema; partitioned write as a
directory-per-value layout whose recursive read restores the partition
column) is taken from the specification's 4.4 and 8. -/

/-- A Dataset: a schema and rows of cells (spec 3, "Data model"). -/
structure Dataset (α : Type) where
  schema : List String
  rows : List (List α)
deriving DecidableEq

/-- A columnar (Parquet) file: the schema is embedded next to the row data. -/
structure ParquetFile (α : Type) where
  fileSchema : List String
  fileRows : List (List α)
deriving DecidableEq

/-- Model of `df.write.parquet`: persist schema and rows. -/
def writeParquet (d : Dataset α) : ParquetFile α :=
  ⟨d.schema, d.rows⟩

/-- Model of `spark.read.parquet`: recover schema and rows from the file. -/
def readParquet (f : ParquetFile α) : Dataset α :=
  ⟨f.fileSchema, f.fileRows⟩

/-- The distinct values of column `k`, in first-occurrence order: one output
directory per value (`partitionBy("COUNTRY_1")`). -/
def partitionValues (k : Nat) (rows : List (List String)) : List String :=
  (rows.map (fun r => r.getD k "")).dedup

/-- Partitioned write: one directory per value `v` of column `k`, holding the
rows whose column `k` is `v` with that column removed (the partition column
is encoded in the directory name, not stored in the files). -/
def partitionedWrite (k : Nat) (rows : List (List String)) :
    List (String × List (List String)) :=
  (partitionValues k rows).map (fun v =>
    (v, (rows.filter (fun r => decide (r.getD k "" = v))).map (fun r => r.eraseIdx k)))

/-- Recursive read of every partition directory: the partition column is
restored from the directory name at its original position. -/
def readAllPartitions (k : Nat) (parts : List (String × List (List String))) :
    List (List String) :=
  parts.flatMap (fun p => p.2.map (fun r => r.insertIdx k p.1))

/-! ## Relational operations (Transformer)

Modelled from the spec: standard relational semantics of spec 4.3 — inner
emits matched pairs only, left-outer preserves all left rows filling
unmatched fields with null, full-outer is the union of both sides, cross is
the Cartesian product. -/

/-- Inner join under the match predicate `m` (the join condition
`customer_df.customer_id == sales_df.customer_id`). -/
def innerJoin (L : List α) (R : List β) (m : α → β → Bool) : List (α × β) :=
  L.flatMap (fun l => (R.filter (m l)).map (fun r => (l, r)))

/-- Left-outer join: every left row appears; unmatched left rows pair with
`none` (null-filled right side). -/
def leftOuterJoin (L : List α) (R : List β) (m : α → β → Bool) :
    List (α × Option β) :=
  L.flatMap (fun l =>
    let ms := R.filter (m l)
    if ms.isEmpty then [(l, none)] else ms.map (fun r => (l, some r)))

/-- Full-outer join: the left-outer rows plus the right rows matched by no
left row (null-filled left side). -/
def fullOuterJoin (L : List α) (R : List β) (m : α → β → Bool) :
    List (Option α × Option β) :=
  (leftOuterJoin L R m).map (fun p => (some p.1, p.2)) ++
    (R.filter (fun r => !(L.any (fun l => m l r)))).map (fun r => (none, some r))

/-- Cross join: the Cartesian product (`customer_df.crossJoin(sales_df)`). -/
def crossJoin (L : List α) (R : List β) : List (α × β) :=
  L.flatMap (fun l => R.map (fun r => (l, r)))

/-- Positional union (`DataFrame.union`): concatenation, duplicates kept. -/
def unionDF (a b : List α) : List α := a ++ b

/-- Model of `DataFrame.distinct()`: drop exact duplicate rows. -/
def distinctDF [DecidableEq α] (l : List α) : List α := l.dedup

/-- Model of `when(...).when(...).otherwise(...)`: branches are tried top to bottom,
the first whose condition holds gives the value, else the default. -/
def caseWhen {ρ σ : Type} (branches : List ((ρ → Bool) × σ)) (dflt : σ) (row : ρ) : σ :=
  match branches with
  | [] => dflt
  | (c, v) :: rest => if c row then v else caseWhen rest dflt row

/-- First branch of `emp_df_2`'s `is_adult` column (line 322):
`when((col("age")>0) & (col("age")<18), "minor")`; a null age makes the
condition unknown, which does not match. -/
def minorBranch : (Option Int → Bool) × String :=
  ⟨fun a => a.elim false (fun x => decide (0 < x) && decide (x < 18)), "minor"⟩

/-- Second branch of `emp_df_2`'s `is_adult` column (line 323):
`when((col("age")>18) & (col("age")<30), "medium")`. -/
def mediumBranch : (Option Int → Bool) × String :=
  ⟨fun a => a.elim false (fun x => decide (18 < x) && decide (x < 30)), "medium"⟩

/-- The `is_adult` column of `emp_df_2` (lines 320-324): the two `when`
branches tried in order, `otherwise("major")`. -/
def is_adult_column (age : Option Int) : String :=
  caseWhen [minorBranch, mediumBranch] "major" age

/-- SQL `rank` over a window, per partition: with the partition's order keys
listed in window order, the rank of a row is one plus the number of rows
strictly ahead of its peer group (ties share the rank; the window here is
`Window.partitionBy("department").orderBy(col("salary").desc())`, so "ahead"
means a strictly larger salary). -/
def rankSeq (vs : List Int) : List Nat :=
  vs.map (fun x => 1 + vs.countP (fun v => decide (v > x)))

/-- SQL `dense_rank` over the same window: one plus the number of distinct
order-key values strictly ahead, so consecutive ranks with no gaps. -/
def denseRankSeq (vs : List Int) : List Nat :=
  vs.map (fun x => 1 + ((vs.filter (fun v => decide (v > x))).dedup).length)

/-- The "sales" partition of `e_data` (lines 514-525) under the window order
salary descending: priti 90000, akhilesh 90000, vikash 60000. -/
def salesPartitionSalaries : List Int := [90000, 90000, 60000]

/-! ## Literal row data of the script -/

/-- A row of `manager_df_1` / `manager_df_2`: (id, name, sal, mngr_id). -/
abbrev MRow := Int × String × Int × Int

/-- The ten rows of `manager_df_1` (lines 246-255); the row (18, Sam, 65000,
17) appears twice and is the table's only exact duplicate. -/
def manager_data_1 : List MRow :=
  [(10, "Anil", 50000, 18), (11, "Vikas", 75000, 16), (12, "Nisha", 40000, 18),
   (13, "Nidhi", 60000, 17), (14, "Priya", 80000, 18), (15, "Mohit", 45000, 18),
   (16, "Rajesh", 90000, 10), (17, "Raman", 55000, 16), (18, "Sam", 65000, 17),
   (18, "Sam", 65000, 17)]

/-- The two rows of `manager_df_2` (lines 267-268). -/
def manager_data_2 : List MRow :=
  [(19, "Sohan", 50000, 18), (20, "Sima", 75000, 17)]

/-- The three-row input of the filter scenario: (id, country, salary). -/
def filter_scenario_rows : List (Int × String × Int) :=
  [(1, "JAPAN", 70000), (2, "JAPAN", 90000), (3, "INDIA", 60000)]

/-- The filter of `employee_df_6` (line 213): country = "JAPAN" AND
salary > 70000, both strict. -/
def filterJapanHighSalary (rows : List (Int × String × Int)) :
    List (Int × String × Int) :=
  rows.filter (fun r => decide (r.2.1 = "JAPAN") && decide (r.2.2 > 70000))

/-- The header of `2015-summary.csv` under the manual schema of Step 4. -/
def flightSchema : List String := ["COUNTRY_1", "COUNTRY_2", "TOTAL_COUNT"]

/-- Sample rows in the shape of `2015-summary.csv` (the file itself is data,
not source); used to exercise the Loader round trips on concrete input. -/
def flightRows : List (List String) :=
  [["United States", "Romania", "15"], ["United States", "Croatia", "1"],
   ["India", "United States", "69"]]

/-- A concrete Dataset in the shape of `flight_df_1`. -/
def flightDataset : Dataset String := ⟨flightSchema, flightRows⟩

/-! ## Publisher (`upload_to_s3`, lines 738-762) -/

/-- One S3 `upload_file` request as `upload_to_s3` issues it: the artifact,
its destination bucket and key, the client's region, and the optional
`ExpectedBucketOwner` assertion taken from the environment. -/
structure S3Request where
  local_file : String
  bucket : String
  key : String
  region : String
  expectedBucketOwner : Option String
deriving DecidableEq

/-- The default region of `upload_to_s3`. -/
def defaultRegion : String := "eu-north-1"

/-- Embedding of `upload_to_s3(local_file, bucket, key, region)`: build the client for
`region`, issue exactly one `upload_file` request carrying the optional
`ExpectedBucketOwner` (from `AWS_ACCOUNT_ID`), print the success line on
success.  `net` is the external object store; there is no try/except and no
loop, so the error of a failed upload propagates to the caller unchanged and
no second request is made.  The result pairs the outcome with the list of
requests issued. -/
def upload_to_s3 (net : S3Request → Except String Unit)
    (awsAccountId : Option String)
    (local_file bucket key region : String) :
    Except String (List String) × List S3Request :=
  let req : S3Request := ⟨local_file, bucket, key, region, awsAccountId⟩
  match net req with
  | .ok _ => (.ok ["Uploaded to s3://" ++ bucket ++ "/" ++ key], [req])
  | .error e => (.error e, [req])

/-- An object store that accepts every upload; used to exercise
`upload_to_s3` on the script's concrete call (line 758-762). -/
def alwaysOkStore : S3Request → Except String Unit := fun _ => .ok ()

end PysparkETL

namespace PysparkETL

/-! ## Helper lemmas -/

/-- When the source tree exists as a directory and the destination is not a
plain file, the sync reduces to clear-then-copy with the synced marker. -/
theorem sync_back_eq_of_dir (fs : FS) (src dest : Path)
    (hdir : isDir fs src = true) (hsf : isFile fs src = false)
    (hdf : isFile fs dest = false) :
    sync_back_to_workspace fs src dest = (copyTree (rmTree fs dest) src dest, .synced) := by
  simp [sync_back_to_workspace, pathExists, hdir, hsf, hdf]

/-- A list whose only repeated element occurs exactly twice loses exactly one
entry under `dedup`. -/
theorem dedup_length_of_one_dup {α : Type} [DecidableEq α] (l : List α) (r : α)
    (h2 : l.count r = 2) (h1 : ∀ s ∈ l, s ≠ r → l.count s ≤ 1) :
    l.dedup.length = l.length - 1 := by
  have hr : r ∈ l := List.count_pos_iff.1 (by omega)
  have hrf : r ∈ l.toFinset := List.mem_toFinset.2 hr
  have hsum : ∑ a ∈ l.toFinset, l.count a = l.length := by
    simpa using Multiset.toFinset_sum_count_eq (l : Multiset α)
  have hothers : ∀ a ∈ l.toFinset.erase r, l.count a = 1 := by
    intro a ha
    have hne := Finset.ne_of_mem_erase ha
    have hmem := List.mem_toFinset.1 (Finset.mem_of_mem_erase ha)
    have hle := h1 a hmem hne
    have hge : 0 < l.count a := List.count_pos_iff.2 hmem
    omega
  have herase : ∑ a ∈ l.toFinset.erase r, l.count a = (l.toFinset.erase r).card := by
    rw [Finset.sum_congr rfl hothers]
    simp
  have hcard : (l.toFinset.erase r).card = l.toFinset.card - 1 := Finset.card_erase_of_mem hrf
  have hs := Finset.sum_erase_add l.toFinset (fun a => l.count a) hrf
  have hpos : 1 ≤ l.toFinset.card := Finset.card_pos.2 ⟨r, hrf⟩
  rw [← List.card_toFinset]
  simp only at hs
  omega

/-- Unfolding `rankSeq` at a position. -/
theorem rankSeq_getD (vs : List Int) (i : Nat) (h : i < vs.length) :
    (rankSeq vs).getD i 0 = 1 + vs.countP (fun v => decide (v > vs[i])) := by
  rw [rankSeq, List.getD_eq_getElem _ _ (by simpa using h)]
  simp

/-- Unfolding `denseRankSeq` at a position. -/
theorem denseRankSeq_getD (vs : List Int) (i : Nat) (h : i < vs.length) :
    (denseRankSeq vs).getD i 0 =
      1 + ((vs.filter (fun v => decide (v > vs[i]))).dedup).length := by
  rw [denseRankSeq, List.getD_eq_getElem _ _ (by simpa using h)]
  simp

/-- In a descending-sorted list, later entries are no larger. -/
theorem sorted_getElem_le (vs : List Int) (hs : vs.Sorted (· ≥ ·)) (i j : Nat)
    (hij : i ≤ j) (hj : j < vs.length) : vs[j] ≤ vs[i] := by
  rcases Nat.lt_or_ge i j with hlt | hge
  · have := hs.rel_get_of_lt (a := ⟨i, by omega⟩) (b := ⟨j, hj⟩) (by simpa using hlt)
    simpa using this
  · have : i = j := by omega
    subst this
    exact le_refl _

/-- Removing position `k` and re-inserting the removed value at `k` restores
the row. -/
theorem insertIdx_eraseIdx_getD : ∀ (r : List String) (k : Nat), k < r.length →
    (r.eraseIdx k).insertIdx k (r.getD k "") = r
  | [], k, h => by simp at h
  | a :: r, 0, _ => by
    simp [List.eraseIdx_cons_zero, List.getD_cons_zero, List.insertIdx_zero]
  | a :: r, k + 1, h => by
    rw [List.eraseIdx_cons_succ, List.getD_cons_succ, List.insertIdx_succ_cons,
      insertIdx_eraseIdx_getD r k (by simpa using h)]

/-- Congruence: `flatMap` only looks at the function's values on members. -/
theorem flatMap_congr_mem {α β : Type} (l : List α) (f g : α → List β)
    (h : ∀ a ∈ l, f a = g a) : l.flatMap f = l.flatMap g := by
  induction l with
  | nil => rfl
  | cons a l ih =>
    rw [List.flatMap_cons, List.flatMap_cons, h a (List.mem_cons_self a l),
      ih (fun x hx => h x (List.mem_cons_of_mem a hx))]

/-- Grouping rows by their key value over a duplicate-free cover of the keys
and concatenating the groups permutes the original rows. -/
theorem flatMap_filter_perm {α : Type} [DecidableEq α] (f : α → String) :
    ∀ (vals : List String) (rows : List α), vals.Nodup →
    (∀ r ∈ rows, f r ∈ vals) →
    List.Perm (vals.flatMap (fun v => rows.filter (fun r => decide (f r = v)))) rows
  | [], rows, _, hall => by
    have : rows = [] := List.eq_nil_iff_forall_not_mem.2 (fun r hr => by
      have := hall r hr
      simp at this)
    simp [this]
  | v :: vs, rows, hnd, hall => by
    rw [List.flatMap_cons]
    have hvnotin : v ∉ vs := (List.nodup_cons.1 hnd).1
    have hnd2 : vs.Nodup := (List.nodup_cons.1 hnd).2
    set rows2 := rows.filter (fun r => !(decide (f r = v))) with hrows2
    have hstep : ∀ w ∈ vs, rows.filter (fun r => decide (f r = w)) =
        rows2.filter (fun r => decide (f r = w)) := by
      intro w hw
      have hwv : w ≠ v := fun h => hvnotin (h ▸ hw)
      rw [hrows2, List.filter_filter]
      refine List.filter_congr ?_
      intro a _
      by_cases hfa : f a = w
      · simp [hfa, hwv]
      · simp [hfa]
    have hrw : vs.flatMap (fun w => rows.filter (fun r => decide (f r = w))) =
        vs.flatMap (fun w => rows2.filter (fun r => decide (f r = w))) :=
      flatMap_congr_mem vs _ _ hstep
    rw [hrw]
    have hall2 : ∀ r ∈ rows2, f r ∈ vs := by
      intro r hr
      rw [hrows2] at hr
      have hm := List.mem_filter.1 hr
      have := hall r hm.1
      rcases List.mem_cons.1 this with h | h
      · exfalso
        have := hm.2
        simp [h] at this
      · exact h
    have ih := flatMap_filter_perm f vs rows2 hnd2 hall2
    exact (ih.append_left _).trans (by
      rw [hrows2]
      exact List.filter_append_perm _ rows)

end PysparkETL

namespace PysparkETL

/-! ## Claim theorems -/

/-- C1: when the bridged source file does not exist (and in general whenever
the copy raises), the Step 2 extractor prints the error and the hint and
returns normally with the filesystem unchanged, and the pipeline's later
stages still execute — their completion marker follows the reported error in
the run's log; a missing source is never a fatal process-level crash. -/
theorem extract_missing_source_nonfatal (fs : FS) (src dst : Path)
    (h : isFile fs src = false) :
    dataBridge fs src dst =
      (fs, [.err ("Error: " ++ ("No such file or directory: " ++ String.intercalate "/" src)),
            .err "If it fails, manually verify if the source exists locally using os.path.exists"]) ∧
    pipelineFromBridge fs src dst =
      (fs, [.err ("Error: " ++ ("No such file or directory: " ++ String.intercalate "/" src)),
            .err "If it fails, manually verify if the source exists locally using os.path.exists",
            .ok "Transformations complete"]) ∧
    (∀ (g : FS) (e : String), copyFile g src dst = .error e →
      dataBridge g src dst =
        (g, [.err ("Error: " ++ e),
             .err "If it fails, manually verify if the source exists locally using os.path.exists"])) := by
  have hf : fs.files.find? (fun e => decide (e.1 = src)) = none := by
    rw [List.find?_eq_none]
    intro x hx
    have := List.any_eq_false.1 h x hx
    simpa using this
  refine ⟨?_, ?_, ?_⟩
  · simp [dataBridge, copyFile, hf]
  · simp [pipelineFromBridge, dataBridge, copyFile, hf]
  · intro g e he
    simp [dataBridge, he]

/-- C1 witness: a concrete filesystem without the source file. -/
theorem extract_missing_source_nonfatal_witness :
    isFile ⟨[(["files", "scripts", "x.txt"], "X")]⟩
        ["files", "datasets", "input", "2015-summary.csv"] = false ∧
    (dataBridge ⟨[(["files", "scripts", "x.txt"], "X")]⟩
        ["files", "datasets", "input", "2015-summary.csv"]
        ["Volumes", "input", "2015-summary.csv"] =
      (⟨[(["files", "scripts", "x.txt"], "X")]⟩,
       [.err ("Error: " ++ ("No such file or directory: " ++
          String.intercalate "/" ["files", "datasets", "input", "2015-summary.csv"])),
        .err "If it fails, manually verify if the source exists locally using os.path.exists"]) ∧
     pipelineFromBridge ⟨[(["files", "scripts", "x.txt"], "X")]⟩
        ["files", "datasets", "input", "2015-summary.csv"]
        ["Volumes", "input", "2015-summary.csv"] =
      (⟨[(["files", "scripts", "x.txt"], "X")]⟩,
       [.err ("Error: " ++ ("No such file or directory: " ++
          String.intercalate "/" ["files", "datasets", "input", "2015-summary.csv"])),
        .err "If it fails, manually verify if the source exists locally using os.path.exists",
        .ok "Transformations complete"]) ∧
     (∀ (g : FS) (e : String),
        copyFile g ["files", "datasets", "input", "2015-summary.csv"]
          ["Volumes", "input", "2015-summary.csv"] = .error e →
        dataBridge g ["files", "datasets", "input", "2015-summary.csv"]
          ["Volumes", "input", "2015-summary.csv"] =
          (g, [.err ("Error: " ++ e),
               .err "If it fails, manually verify if the source exists locally using os.path.exists"]))) :=
  ⟨by decide, extract_missing_source_nonfatal _ _ _ (by decide)⟩

/-- C2: a Dataset written and read back in the same format keeps its rows
and schema — the Parquet write/read is the identity on the Dataset — and a
write partitioned by a column followed by a recursive read of all partitions
reconstructs the original row set exactly, order-insensitively (a
permutation, hence equal multiplicity for every row). -/
theorem write_read_round_trip {α : Type} (d : Dataset α) (k : Nat)
    (rows : List (List String)) (hk : ∀ r ∈ rows, k < r.length) :
    readParquet (writeParquet d) = d ∧
    (readParquet (writeParquet d)).rows = d.rows ∧
    (readParquet (writeParquet d)).schema = d.schema ∧
    List.Perm (readAllPartitions k (partitionedWrite k rows)) rows ∧
    (∀ x, (readAllPartitions k (partitionedWrite k rows)).count x = rows.count x) := by
  have hbody : ∀ v ∈ partitionValues k rows,
      ((rows.filter (fun r => decide (r.getD k "" = v))).map (fun r => r.eraseIdx k)).map
        (fun r => List.insertIdx k v r) =
      rows.filter (fun r => decide (r.getD k "" = v)) := by
    intro v _
    rw [List.map_map]
    have hid : ∀ r ∈ rows.filter (fun r => decide (r.getD k "" = v)),
        ((fun r => List.insertIdx k v r) ∘ (fun r => r.eraseIdx k)) r = id r := by
      intro r hr
      obtain ⟨hrmem, hrv⟩ := List.mem_filter.1 hr
      have hkr := hk r hrmem
      have hv : r.getD k "" = v := by simpa using hrv
      simp only [Function.comp_apply, id]
      rw [← hv]
      exact insertIdx_eraseIdx_getD r k hkr
    rw [List.map_congr_left hid, List.map_id]
  have hperm : List.Perm (readAllPartitions k (partitionedWrite k rows)) rows := by
    rw [readAllPartitions, partitionedWrite, List.flatMap_map]
    show List.Perm ((partitionValues k rows).flatMap
      (fun v => ((rows.filter (fun r => decide (r.getD k "" = v))).map
        (fun r => r.eraseIdx k)).map (fun r => List.insertIdx k v r))) rows
    rw [flatMap_congr_mem _ _ _ hbody]
    refine flatMap_filter_perm (fun r => r.getD k "") (partitionValues k rows) rows ?_ ?_
    · exact List.nodup_dedup _
    · intro r hr
      rw [partitionValues]
      exact List.mem_dedup.2 (List.mem_map.2 ⟨r, hr, rfl⟩)
  refine ⟨rfl, rfl, rfl, hperm, fun x => ?_⟩
  rw [show (List.instBEq : BEq (List String)) = instBEqOfDecidableEq from
    lawful_beq_subsingleton _ _]
  exact hperm.count_eq x

/-- C2 witness: the round trips on a concrete flight Dataset, partitioned by
its first column. -/
theorem write_read_round_trip_witness :
    (∀ r ∈ flightRows, 0 < r.length) ∧
    (readParquet (writeParquet flightDataset) = flightDataset ∧
     (readParquet (writeParquet flightDataset)).rows = flightDataset.rows ∧
     (readParquet (writeParquet flightDataset)).schema = flightDataset.schema ∧
     List.Perm (readAllPartitions 0 (partitionedWrite 0 flightRows)) flightRows ∧
     (∀ x, (readAllPartitions 0 (partitionedWrite 0 flightRows)).count x =
        flightRows.count x)) :=
  ⟨by decide, write_read_round_trip flightDataset 0 flightRows (by decide)⟩

end PysparkETL

namespace PysparkETL

/-- C3: when the source tree exists (as a directory, with the destination
not a plain file and the two trees not nested in one another),
`sync_back_to_workspace` completes with the synced marker, the destination
then contains exactly a copy of the source — a file sits at `dest ++ rel`
with content `c` precisely when one sits at `src ++ rel` with content `c` —
and no file from any prior tree at the destination remains: every file under
the destination is the copy of the corresponding source file
(clear-then-copy, not merge). -/
theorem sync_back_clear_then_copy (fs : FS) (src dest : Path)
    (hdir : isDir fs src = true) (hsf : isFile fs src = false)
    (hdf : isFile fs dest = false)
    (hsd : ¬ src <+: dest) (hds : ¬ dest <+: src) :
    (sync_back_to_workspace fs src dest).2 = .synced ∧
    (∀ rel c, (dest ++ rel, c) ∈ (sync_back_to_workspace fs src dest).1.files ↔
        (src ++ rel, c) ∈ fs.files) ∧
    (∀ p c, (p, c) ∈ (sync_back_to_workspace fs src dest).1.files → dest <+: p →
        (src ++ p.drop dest.length, c) ∈ fs.files) := by
  have heq := sync_back_eq_of_dir fs src dest hdir hsf hdf
  rw [heq]
  refine ⟨rfl, ?_, ?_⟩
  · intro rel c
    constructor
    · intro hmem
      simp only [copyTree, rmTree, List.mem_append, List.mem_filter, List.mem_map,
        decide_eq_true_eq] at hmem
      rcases hmem with ⟨hin, hnd⟩ | ⟨⟨e1, e2⟩, ⟨⟨hef, _⟩, hesrc⟩, himg⟩
      · have hp : dest <+: dest ++ rel := List.prefix_append dest rel
        exact absurd hp hnd
      · obtain ⟨t, ht⟩ := hesrc
        have h2 : e2 = c := congrArg Prod.snd himg
        have h1 : dest ++ e1.drop src.length = dest ++ rel := congrArg Prod.fst himg
        have h3 : e1.drop src.length = rel := List.append_cancel_left h1
        subst ht h2
        rw [List.drop_left] at h3
        subst h3
        exact hef
    · intro hmem
      have hnd : ¬ dest <+: src ++ rel := by
        intro hpre
        have hp2 : src <+: src ++ rel := List.prefix_append src rel
        rcases List.prefix_or_prefix_of_prefix hpre hp2 with h | h
        · exact hds h
        · exact hsd h
      simp only [copyTree, rmTree, List.mem_append, List.mem_filter, List.mem_map,
        decide_eq_true_eq]
      right
      refine ⟨(src ++ rel, c), ⟨⟨hmem, hnd⟩, List.prefix_append src rel⟩, ?_⟩
      simp [List.drop_left]
  · intro p c hmem hpre
    simp only [copyTree, rmTree, List.mem_append, List.mem_filter, List.mem_map,
      decide_eq_true_eq] at hmem
    rcases hmem with ⟨_, hnd⟩ | ⟨⟨e1, e2⟩, ⟨⟨hef, _⟩, hesrc⟩, himg⟩
    · exact absurd hpre hnd
    · obtain ⟨t, ht⟩ := hesrc
      have h2 : e2 = c := congrArg Prod.snd himg
      have h1 : dest ++ e1.drop src.length = p := congrArg Prod.fst himg
      subst ht h2
      rw [List.drop_left] at h1
      rw [← h1, List.drop_left]
      exact hef

/-- C3 witness: a concrete volume tree synced over a stale workspace tree. -/
theorem sync_back_clear_then_copy_witness :
    (isDir ⟨[(["Volumes", "output", "a.csv"], "A"),
             (["Volumes", "output", "part", "b.csv"], "B"),
             (["ws", "datasets", "output", "old.csv"], "OLD")]⟩ ["Volumes", "output"] = true ∧
     isFile ⟨[(["Volumes", "output", "a.csv"], "A"),
             (["Volumes", "output", "part", "b.csv"], "B"),
             (["ws", "datasets", "output", "old.csv"], "OLD")]⟩ ["Volumes", "output"] = false ∧
     isFile ⟨[(["Volumes", "output", "a.csv"], "A"),
             (["Volumes", "output", "part", "b.csv"], "B"),
             (["ws", "datasets", "output", "old.csv"], "OLD")]⟩
        ["ws", "datasets", "output"] = false) ∧
    ((sync_back_to_workspace ⟨[(["Volumes", "output", "a.csv"], "A"),
             (["Volumes", "output", "part", "b.csv"], "B"),
             (["ws", "datasets", "output", "old.csv"], "OLD")]⟩
        ["Volumes", "output"] ["ws", "datasets", "output"]).2 = .synced ∧
     (∀ rel c, (["ws", "datasets", "output"] ++ rel, c) ∈
          (sync_back_to_workspace ⟨[(["Volumes", "output", "a.csv"], "A"),
             (["Volumes", "output", "part", "b.csv"], "B"),
             (["ws", "datasets", "output", "old.csv"], "OLD")]⟩
            ["Volumes", "output"] ["ws", "datasets", "output"]).1.files ↔
        (["Volumes", "output"] ++ rel, c) ∈
          [(["Volumes", "output", "a.csv"], "A"),
           (["Volumes", "output", "part", "b.csv"], "B"),
           (["ws", "datasets", "output", "old.csv"], "OLD")]) ∧
     (∀ p c, (p, c) ∈ (sync_back_to_workspace ⟨[(["Volumes", "output", "a.csv"], "A"),
             (["Volumes", "output", "part", "b.csv"], "B"),
             (["ws", "datasets", "output", "old.csv"], "OLD")]⟩
            ["Volumes", "output"] ["ws", "datasets", "output"]).1.files →
        ["ws", "datasets", "output"] <+: p →
        (["Volumes", "output"] ++ p.drop (["ws", "datasets", "output"] : Path).length, c) ∈
          [(["Volumes", "output", "a.csv"], "A"),
           (["Volumes", "output", "part", "b.csv"], "B"),
           (["ws", "datasets", "output", "old.csv"], "OLD")])) :=
  ⟨⟨by decide, by decide, by decide⟩,
   sync_back_clear_then_copy _ _ _ (by decide) (by decide) (by decide) (by decide) (by decide)⟩

/-- C4: over all input tables and every join condition, the row counts obey
|inner| ≤ |left-outer| ≤ |full-outer|, and the cross join has exactly
|L| × |R| rows. -/
theorem join_row_count_ordering {α β : Type} (L : List α) (R : List β) (m : α → β → Bool) :
    (innerJoin L R m).length ≤ (leftOuterJoin L R m).length ∧
    (leftOuterJoin L R m).length ≤ (fullOuterJoin L R m).length ∧
    (crossJoin L R).length = L.length * R.length := by
  refine ⟨?_, ?_, ?_⟩
  · induction L with
    | nil => simp [innerJoin, leftOuterJoin]
    | cons l L ih =>
      simp only [innerJoin, leftOuterJoin, List.flatMap_cons, List.length_append]
      refine Nat.add_le_add ?_ ih
      by_cases h : (R.filter (m l)).isEmpty
      · simp [h, List.isEmpty_iff.1 h]
      · simp [h]
  · simp only [fullOuterJoin, List.length_append, List.length_map]
    exact Nat.le_add_right _ _
  · induction L with
    | nil => simp [crossJoin]
    | cons l L ih =>
      simp only [crossJoin, List.flatMap_cons, List.length_append, List.length_map,
        List.length_cons] at ih ⊢
      rw [ih, Nat.succ_mul, Nat.add_comm]

end PysparkETL

namespace PysparkETL

/-- C5: within a window partition taken in window order (salary descending,
so a descending-sorted list of order keys), the rank and dense-rank
sequences never decrease; dense rank moves in steps of at most one starting
at one (consecutive values, no gaps), while rank may skip values immediately
after ties — as it does on the sales partition of `e_df`, whose ranks are
1, 1, 3 (2 is skipped) against dense ranks 1, 1, 2. -/
theorem window_rank_dense_rank (vs : List Int) (hs : vs.Sorted (· ≥ ·)) :
    (∀ i j, i ≤ j → j < vs.length →
      (rankSeq vs).getD i 0 ≤ (rankSeq vs).getD j 0 ∧
      (denseRankSeq vs).getD i 0 ≤ (denseRankSeq vs).getD j 0) ∧
    (∀ i, i + 1 < vs.length →
      (denseRankSeq vs).getD (i + 1) 0 ≤ (denseRankSeq vs).getD i 0 + 1) ∧
    (0 < vs.length → (rankSeq vs).getD 0 0 = 1 ∧ (denseRankSeq vs).getD 0 0 = 1) ∧
    rankSeq salesPartitionSalaries = [1, 1, 3] ∧
    (2 ∉ rankSeq salesPartitionSalaries) ∧
    denseRankSeq salesPartitionSalaries = [1, 1, 2] := by
  refine ⟨?_, ?_, ?_, by decide, by decide, by decide⟩
  · intro i j hij hj
    have hi : i < vs.length := by omega
    have hle : vs[j] ≤ vs[i] := sorted_getElem_le vs hs i j hij hj
    constructor
    · rw [rankSeq_getD vs i hi, rankSeq_getD vs j hj]
      refine Nat.add_le_add_left ?_ 1
      refine List.countP_mono_left ?_
      intro a _ hpa
      simp only [decide_eq_true_eq] at hpa ⊢
      omega
    · rw [denseRankSeq_getD vs i hi, denseRankSeq_getD vs j hj]
      refine Nat.add_le_add_left ?_ 1
      rw [← List.card_toFinset, ← List.card_toFinset]
      refine Finset.card_le_card ?_
      intro x hx
      simp only [List.mem_toFinset, List.mem_filter, decide_eq_true_eq] at hx ⊢
      exact ⟨hx.1, by omega⟩
  · intro i hi1
    have hi : i < vs.length := by omega
    have key : ∀ v ∈ vs, v > vs[i + 1] → vs[i] ≤ v := by
      intro v hv hgt
      obtain ⟨k, hk, hvk⟩ := List.mem_iff_getElem.1 hv
      rcases le_or_lt k i with hki | hki
      · have := sorted_getElem_le vs hs k i hki hi
        omega
      · have hik : i + 1 ≤ k := hki
        have := sorted_getElem_le vs hs (i + 1) k hik hk
        omega
    rw [denseRankSeq_getD vs (i + 1) hi1, denseRankSeq_getD vs i hi]
    rw [← List.card_toFinset, ← List.card_toFinset]
    have hsub : (vs.filter (fun v => decide (v > vs[i + 1]))).toFinset ⊆
        insert vs[i] (vs.filter (fun v => decide (v > vs[i]))).toFinset := by
      intro x hx
      simp only [List.mem_toFinset, List.mem_filter, decide_eq_true_eq] at hx
      have hxa := key x hx.1 hx.2
      rcases lt_or_eq_of_le hxa with h | h
      · refine Finset.mem_insert_of_mem ?_
        simp only [List.mem_toFinset, List.mem_filter, decide_eq_true_eq]
        exact ⟨hx.1, h⟩
      · rw [← h]
        exact Finset.mem_insert_self _ _
    have h1 := Finset.card_le_card hsub
    have h2 := Finset.card_insert_le vs[i] (vs.filter (fun v => decide (v > vs[i]))).toFinset
    omega
  · intro hpos
    have key0 : ∀ v ∈ vs, ¬ (v > vs[0]) := by
      intro v hv
      obtain ⟨k, hk, hvk⟩ := List.mem_iff_getElem.1 hv
      have := sorted_getElem_le vs hs 0 k (Nat.zero_le k) hk
      omega
    constructor
    · rw [rankSeq_getD vs 0 hpos]
      have : vs.countP (fun v => decide (v > vs[0])) = 0 := by
        refine List.countP_eq_zero.2 ?_
        intro a ha
        simpa using key0 a ha
      omega
    · rw [denseRankSeq_getD vs 0 hpos]
      have : vs.filter (fun v => decide (v > vs[0])) = [] := by
        refine List.filter_eq_nil_iff.2 ?_
        intro a ha
        simpa using key0 a ha
      rw [this]
      rfl

/-- C5 witness: the sales partition of `e_df` in window order. -/
theorem window_rank_dense_rank_witness :
    salesPartitionSalaries.Sorted (· ≥ ·) ∧
    ((∀ i j, i ≤ j → j < salesPartitionSalaries.length →
      (rankSeq salesPartitionSalaries).getD i 0 ≤ (rankSeq salesPartitionSalaries).getD j 0 ∧
      (denseRankSeq salesPartitionSalaries).getD i 0 ≤
        (denseRankSeq salesPartitionSalaries).getD j 0) ∧
    (∀ i, i + 1 < salesPartitionSalaries.length →
      (denseRankSeq salesPartitionSalaries).getD (i + 1) 0 ≤
        (denseRankSeq salesPartitionSalaries).getD i 0 + 1) ∧
    (0 < salesPartitionSalaries.length →
      (rankSeq salesPartitionSalaries).getD 0 0 = 1 ∧
      (denseRankSeq salesPartitionSalaries).getD 0 0 = 1) ∧
    rankSeq salesPartitionSalaries = [1, 1, 3] ∧
    (2 ∉ rankSeq salesPartitionSalaries) ∧
    denseRankSeq salesPartitionSalaries = [1, 1, 2]) :=
  ⟨by decide, window_rank_dense_rank salesPartitionSalaries (by decide)⟩

end PysparkETL

namespace PysparkETL

/-- C6: the positional union of `manager_df_1` (10 rows, containing exactly
one exact duplicate) and `manager_df_2` (2 rows) has 12 rows with the
duplicate preserved (the Sam row still occurs twice), and
distinct-by-all-columns on any table containing exactly one exact duplicate
row — the duplicated row occurring twice, every other row at most once —
reduces the row count by exactly one. -/
theorem union_preserves_duplicates_distinct_drops_one (l : List MRow) (r : MRow)
    (h2 : l.count r = 2) (h1 : ∀ s ∈ l, s ≠ r → l.count s ≤ 1) :
    manager_data_1.length = 10 ∧ manager_data_2.length = 2 ∧
    (unionDF manager_data_1 manager_data_2).length = 12 ∧
    (unionDF manager_data_1 manager_data_2).count (18, "Sam", 65000, 17) = 2 ∧
    (distinctDF l).length = l.length - 1 := by
  refine ⟨by decide, by decide, by decide, by decide, ?_⟩
  have hinst : (instBEqProd : BEq MRow) = instBEqOfDecidableEq :=
    @lawful_beq_subsingleton MRow instBEqProd instBEqOfDecidableEq inferInstance instLawfulBEq
  rw [hinst] at h2 h1
  exact dedup_length_of_one_dup l r h2 h1

/-- C6 witness: `manager_df_1` itself is such a table, its Sam row being the
one exact duplicate; distinct drops its count from 10 to 9. -/
theorem union_preserves_duplicates_distinct_drops_one_witness :
    (manager_data_1.count (18, "Sam", 65000, 17) = 2 ∧
     (∀ s ∈ manager_data_1, s ≠ (18, "Sam", 65000, 17) → manager_data_1.count s ≤ 1)) ∧
    (manager_data_1.length = 10 ∧ manager_data_2.length = 2 ∧
     (unionDF manager_data_1 manager_data_2).length = 12 ∧
     (unionDF manager_data_1 manager_data_2).count (18, "Sam", 65000, 17) = 2 ∧
     (distinctDF manager_data_1).length = manager_data_1.length - 1) :=
  ⟨⟨by decide, by decide⟩,
   union_preserves_duplicates_distinct_drops_one manager_data_1 (18, "Sam", 65000, 17)
     (by decide) (by decide)⟩

/-- C7: the three-row input [(1,"JAPAN",70000),(2,"JAPAN",90000),
(3,"INDIA",60000)] filtered by country = "JAPAN" AND salary > 70000 yields
exactly one row, the one with id 2 (70000 is not strictly greater than
70000, and INDIA fails the first conjunct). -/
theorem filter_conjunction_scenario :
    filterJapanHighSalary filter_scenario_rows = [(2, "JAPAN", 90000)] ∧
    (filterJapanHighSalary filter_scenario_rows).length = 1 ∧
    ∀ r ∈ filterJapanHighSalary filter_scenario_rows, r.1 = 2 := by
  refine ⟨by decide, by decide, by decide⟩

/-- C8: a when/when/otherwise column evaluates its branches top to bottom —
with every branch before a matching one failing, the first matching branch's
value is produced, and when no branch matches the declared default is
produced; `emp_df_2`'s `is_adult` column behaves accordingly on the
script's rows (age 26 is "medium", 12 is "minor", null and 35 fall to the
default "major"). -/
theorem case_first_match_wins {ρ σ : Type} (pre post : List ((ρ → Bool) × σ))
    (c : ρ → Bool) (v : σ) (d : σ) (row : ρ)
    (h1 : ∀ b ∈ pre, b.1 row = false) (h2 : c row = true) :
    caseWhen (pre ++ (c, v) :: post) d row = v ∧
    (∀ l : List ((ρ → Bool) × σ), (∀ b ∈ l, b.1 row = false) → caseWhen l d row = d) ∧
    is_adult_column (some 26) = "medium" ∧ is_adult_column (some 12) = "minor" ∧
    is_adult_column none = "major" ∧ is_adult_column (some 35) = "major" := by
  refine ⟨?_, ?_, by decide, by decide, by decide, by decide⟩
  · induction pre with
    | nil => simp [caseWhen, h2]
    | cons b pre ih =>
      have hb : b.1 row = false := h1 b (List.mem_cons_self b pre)
      simp only [List.cons_append, caseWhen, hb, if_false]
      exact ih (fun x hx => h1 x (List.mem_cons_of_mem b hx))
  · intro l hl
    induction l with
    | nil => rfl
    | cons b l ih =>
      have hb : b.1 row = false := hl b (List.mem_cons_self b l)
      simp only [caseWhen, hb, if_false]
      exact ih (fun x hx => hl x (List.mem_cons_of_mem b hx))

/-- C8 witness: age 26 — the minor branch fails, the medium branch is the
first (and here only) match. -/
theorem case_first_match_wins_witness :
    ((∀ b ∈ [minorBranch], b.1 (some (26 : Int)) = false) ∧
      mediumBranch.1 (some 26) = true) ∧
    (caseWhen ([minorBranch] ++ (mediumBranch.1, mediumBranch.2) :: []) "major" (some 26) =
        mediumBranch.2 ∧
      (∀ l : List ((Option Int → Bool) × String), (∀ b ∈ l, b.1 (some (26 : Int)) = false) →
        caseWhen l "major" (some 26) = "major") ∧
      is_adult_column (some 26) = "medium" ∧ is_adult_column (some 12) = "minor" ∧
      is_adult_column none = "major" ∧ is_adult_column (some 35) = "major") :=
  ⟨⟨by decide, by decide⟩,
   case_first_match_wins [minorBranch] [] mediumBranch.1 mediumBranch.2 "major" (some 26)
     (by decide) (by decide)⟩

/-- C9: `upload_to_s3` issues exactly one upload request — the named
artifact under the caller-supplied bucket and key, with the optional
expected-owner assertion as a request parameter — and performs no retry; a
failed upload surfaces the store's error to the caller unchanged, a
successful one yields only the success print. -/
theorem upload_to_s3_contract (net : S3Request → Except String Unit)
    (acct : Option String) (f b k r : String) :
    (upload_to_s3 net acct f b k r).2 = [⟨f, b, k, r, acct⟩] ∧
    (∀ e, net ⟨f, b, k, r, acct⟩ = .error e →
      (upload_to_s3 net acct f b k r).1 = .error e) ∧
    (∀ u, net ⟨f, b, k, r, acct⟩ = .ok u →
      (upload_to_s3 net acct f b k r).1 = .ok ["Uploaded to s3://" ++ b ++ "/" ++ k]) := by
  refine ⟨?_, ?_, ?_⟩
  · cases h : net ⟨f, b, k, r, acct⟩ <;> simp [upload_to_s3, h]
  · intro e he
    simp [upload_to_s3, he]
  · intro u hu
    simp [upload_to_s3, hu]

/-- C9 witness: the script's concrete call (result.csv to
sos-databricks-bucket under etl/result.csv in the default region). -/
theorem upload_to_s3_contract_witness :
    (upload_to_s3 alwaysOkStore (some "123456789012") "datasets/output/result.csv"
        "sos-databricks-bucket" "etl/result.csv" defaultRegion).2 =
      [⟨"datasets/output/result.csv", "sos-databricks-bucket", "etl/result.csv",
        defaultRegion, some "123456789012"⟩] ∧
    (∀ e, alwaysOkStore ⟨"datasets/output/result.csv", "sos-databricks-bucket",
        "etl/result.csv", defaultRegion, some "123456789012"⟩ = .error e →
      (upload_to_s3 alwaysOkStore (some "123456789012") "datasets/output/result.csv"
        "sos-databricks-bucket" "etl/result.csv" defaultRegion).1 = .error e) ∧
    (∀ u, alwaysOkStore ⟨"datasets/output/result.csv", "sos-databricks-bucket",
        "etl/result.csv", defaultRegion, some "123456789012"⟩ = .ok u →
      (upload_to_s3 alwaysOkStore (some "123456789012") "datasets/output/result.csv"
        "sos-databricks-bucket" "etl/result.csv" defaultRegion).1 =
        .ok ["Uploaded to s3://" ++ "sos-databricks-bucket" ++ "/" ++ "etl/result.csv"]) :=
  upload_to_s3_contract alwaysOkStore (some "123456789012") "datasets/output/result.csv"
    "sos-databricks-bucket" "etl/result.csv" defaultRegion

/-- C10: when the source path does not exist, `sync_back_to_workspace`
performs no filesystem mutation at all — the filesystem, including the
destination tree, is returned exactly as it was, with only the
missing-source message; the destination-clearing `rmtree` is never
reached. -/
theorem sync_back_missing_source_no_mutation (fs : FS) (volume_src workspace_dest : Path)
    (h : pathExists fs volume_src = false) :
    sync_back_to_workspace fs volume_src workspace_dest = (fs, .sourceMissing) := by
  simp [sync_back_to_workspace, h]

/-- C10 witness: a workspace with only a stale destination tree and no
volume source. -/
theorem sync_back_missing_source_no_mutation_witness :
    pathExists ⟨[(["ws", "datasets", "output", "old.csv"], "OLD")]⟩ ["Volumes", "output"] = false ∧
    sync_back_to_workspace ⟨[(["ws", "datasets", "output", "old.csv"], "OLD")]⟩
        ["Volumes", "output"] ["ws", "datasets", "output"] =
      (⟨[(["ws", "datasets", "output", "old.csv"], "OLD")]⟩, .sourceMissing) :=
  ⟨by decide, sync_back_missing_source_no_mutation _ _ _ (by decide)⟩

end PysparkETL
